import Mathlib

/-!
# Restaurant reservation back end: seating, freeing, validation and queries

A shallow embedding of

* `back-end/src/tables/tables.service.js` (the knex queries on `tables`),
* `back-end/src/tables/tables.controller.js` (the middleware chains of the
  exported `create`, `update` and `delete` routes),
* `back-end/src/reservations/reservations.service.js` (`list`, `search`, `read`),

followed by the properties of the seat and finish transitions, of the create
validation and of the two reservation queries.

The database is a pair of row lists.  A knex `where(...).update(...)` rewrites
every matching row in place, `where(...).first()` yields the first matching row.
There is no transaction: what a handler wrote before it threw stays written.
-/

namespace Restaurant

/-! ## Data model -/

/-- A row of `tables`.  `reservation_id` is the nullable foreign key. -/
structure Table where
  table_id : Nat
  table_name : String
  capacity : Int
  is_free : Bool
  reservation_id : Option Nat
deriving DecidableEq, Repr

/-- A row of `reservations`.  Dates are day numbers and times are seconds of the
day, so that equality and order are those of the SQL `date` and `time` columns.
`status` is one of the fixed status words and is never NULL; `mobile_number` may
be NULL. -/
structure Reservation where
  reservation_id : Nat
  first_name : String
  last_name : String
  mobile_number : Option String
  reservation_date : Nat
  reservation_time : Nat
  people : Int
  status : String
deriving DecidableEq, Repr

/-- The database: the rows of `tables` and of `reservations`. -/
structure Db where
  tables : List Table
  reservations : List Reservation
deriving DecidableEq, Repr

/-! ## Ordering of query results -/

/-- Insertion of one row into a list that is ordered by `le`. -/
def orderedInsertBy {α : Type} (le : α → α → Bool) (a : α) : List α → List α
  | [] => [a]
  | b :: l => if le a b then a :: b :: l else b :: orderedInsertBy le a l

/-- Rows in ascending `ORDER BY` order, `le` comparing the ordering column. -/
def orderBy {α : Type} (le : α → α → Bool) : List α → List α
  | [] => []
  | a :: l => orderedInsertBy le a (orderBy le l)

/-! ## tables.service.js -/

namespace TablesService

/-- Source `list()`: `select * order by table_name`. -/
def list (db : Db) : List Table :=
  orderBy (fun a b => !(decide (b.table_name < a.table_name))) db.tables

/-- Source `create(table)`: insert the row and return it (`returning *`, first
element).  The argument stands for the row as stored, the column defaults of the
schema already filled in. -/
def create (table : Table) (db : Db) : Option Table × Db :=
  (some table, { db with tables := db.tables ++ [table] })

/-- Source `read(table_id)`: `select * where table_id = ? first`. -/
def read (table_id : Nat) (db : Db) : Option Table :=
  db.tables.find? (fun t => t.table_id == table_id)

/-- Source `readReservation(reservation_id)`: `select people where reservation_id = ? first`. -/
def readReservation (reservation_id : Nat) (db : Db) : Option Int :=
  (db.reservations.find? (fun r => r.reservation_id == reservation_id)).map (fun r => r.people)

/-- Source `update(newTableData)`: on every row whose `table_id` is that of
`newTableData`, set `reservation_id` to `newTableData.reservation_id` and
`is_free` to false.  Returns the rewritten rows (`returning *`) and the new
database. -/
def update (newTableData : Table) (db : Db) : List Table × Db :=
  let rewrite : Table → Table := fun t =>
    if t.table_id = newTableData.table_id then
      { t with reservation_id := newTableData.reservation_id, is_free := false }
    else t
  let db1 : Db := { db with tables := db.tables.map rewrite }
  (db1.tables.filter (fun t => t.table_id == newTableData.table_id), db1)

/-- Source `updateStatus(reservationStatus)`: on every reservation whose
`reservation_id` is that of the argument, set every column to the argument's
value.  Returns the number of rows rewritten. -/
def updateStatus (reservationStatus : Reservation) (db : Db) : Nat × Db :=
  let hit : Reservation → Bool := fun r => r.reservation_id == reservationStatus.reservation_id
  ((db.reservations.filter hit).length,
   { db with reservations := db.reservations.map (fun r => if hit r then reservationStatus else r) })

/-- Source `destroy(table_id)`: on every row with that `table_id`, set `is_free`
to true and `reservation_id` to NULL. -/
def destroy (table_id : Nat) (db : Db) : List Table × Db :=
  let rewrite : Table → Table := fun t =>
    if t.table_id = table_id then { t with is_free := true, reservation_id := none } else t
  let db1 : Db := { db with tables := db.tables.map rewrite }
  (db1.tables.filter (fun t => t.table_id == table_id), db1)

end TablesService

/-! ## SQL and JavaScript string functions used by `search` -/

/-- PostgreSQL `translate` on one character: a character found in `src` at some
position becomes the character of `dst` at that position, or disappears when
`dst` is too short; any other character stays. -/
def translateChar (c : Char) : List Char → List Char → List Char
  | [], _ => [c]
  | a :: src, [] => if c = a then [] else translateChar c src []
  | a :: src, b :: dst => if c = a then [b] else translateChar c src dst

/-- PostgreSQL `translate(s, src, dst)`. -/
def sqlTranslate (s src dst : List Char) : List Char :=
  (s.map (fun c => translateChar c src dst)).flatten

/-- The wildcard `%` of a LIKE pattern. -/
def likeAny : Char := Char.ofNat 37

/-- The wildcard `_` of a LIKE pattern. -/
def likeOne : Char := Char.ofNat 95

/-- The escape character of a LIKE pattern, the backslash. -/
def likeEscape : Char := Char.ofNat 92

/-- A pattern character that stands for itself. -/
def likeLiteral (a : Char) : Prop :=
  a ≠ likeAny ∧ a ≠ likeOne ∧ a ≠ likeEscape

/-- PostgreSQL `text LIKE pattern`: `%` matches any run of characters, `_` one
character, a backslash makes the next pattern character literal (a pattern that
ends in a lone backslash matches nothing). -/
def sqlLike : List Char → List Char → Bool
  | [], [] => true
  | [], _ :: _ => false
  | a :: p, [] =>
    if a = likeAny then sqlLike p [] else false
  | a :: p, c :: t =>
    if a = likeAny then sqlLike p (c :: t) || sqlLike (a :: p) t
    else if a = likeOne then sqlLike p t
    else if a = likeEscape then
      match p with
      | [] => false
      | e :: p1 => e == c && sqlLike p1 t
    else a == c && sqlLike p t
termination_by p t => p.length + t.length

/-- JavaScript `s.replace(/\D/g, "")`: every character that is not one of the
digits 0 to 9 is dropped. -/
def jsDigitsOnly (s : String) : List Char :=
  s.toList.filter Char.isDigit

/-! ## reservations.service.js -/

namespace ReservationsService

/-- Source `list(date)`: the rows of that date whose status is not
`finished`, ordered by `reservation_time`. -/
def list (date : Nat) (db : Db) : List Reservation :=
  orderBy (fun a b => decide (a.reservation_time ≤ b.reservation_time))
    ((db.reservations.filter (fun r => r.reservation_date == date)).filter
      (fun r => !(r.status == "finished")))

/-- Source `search(mobile_number)`: the rows with
`translate(mobile_number, '() -', '') like %digits%`, ordered by
`reservation_date`.  A NULL `mobile_number` makes the condition NULL and the
row is left out. -/
def search (mobile_number : String) (db : Db) : List Reservation :=
  let pattern : List Char := [likeAny] ++ jsDigitsOnly mobile_number ++ [likeAny]
  orderBy (fun a b => decide (a.reservation_date ≤ b.reservation_date))
    (db.reservations.filter (fun r =>
      match r.mobile_number with
      | some m => sqlLike pattern (sqlTranslate m.toList "() -".toList [])
      | none => false))

/-- Source `read(reservation_id)`: `select * where reservation_id = ? first`. -/
def read (reservation_id : Nat) (db : Db) : Option Reservation :=
  db.reservations.find? (fun r => r.reservation_id == reservation_id)

end ReservationsService

/-- The phone number with every `(`, `)`, space and `-` deleted. -/
def stripPhone (m : String) : List Char :=
  m.toList.filter (fun c =>
    decide (c ≠ Char.ofNat 40 ∧ c ≠ Char.ofNat 41 ∧ c ≠ Char.ofNat 32 ∧ c ≠ Char.ofNat 45))

/-- One of the ten digit characters, as the specification means "digit". -/
def isDecimalDigit (c : Char) : Bool :=
  decide (c ∈ "0123456789".toList)

/-- The characters of a query with every non-digit character deleted, written
after the specification and independently of the regular expression of
`search`. -/
def deleteNonDigits : List Char → List Char
  | [] => []
  | c :: cs => if isDecimalDigit c then c :: deleteNonDigits cs else deleteNonDigits cs

/-- The string obtained from the query `q` by deleting every non-digit
character. -/
def queryDigits (q : String) : List Char :=
  deleteNonDigits q.toList

/-- The row has a phone number whose stripped form contains the digits of the
query `q` as a contiguous run. -/
def phoneContains (q : String) (r : Reservation) : Prop :=
  ∃ m, r.mobile_number = some m ∧ ∃ a b, stripPhone m = a ++ queryDigits q ++ b

/-! ## The `service` object the controller sees

`const service = require("./tables.service")` is the object
`module.exports = { list, create, read, readReservation, update, updateStatus, destroy }`.
A call `service.name(arg)` looks the property `name` up on that object; calling
a property that is not there throws a `TypeError`. -/

/-- The functions defined in tables.service.js. -/
inductive ServiceFn where
  | list | create | read | readReservation | update | updateStatus | destroy
deriving DecidableEq, Repr

/-- Source `module.exports` of tables.service.js: the property names of the
exported object and the function each one is bound to. -/
def tablesServiceExports : List (String × ServiceFn) :=
  [("list", .list), ("create", .create), ("read", .read),
   ("readReservation", .readReservation), ("update", .update),
   ("updateStatus", .updateStatus), ("destroy", .destroy)]

/-- Argument objects that the controller passes to the service. -/
inductive JsArg where
  | noArg
  | id (n : Nat)
  | tableData (t : Table)
  | reservation (r : Option Reservation)
deriving DecidableEq, Repr

/-- Values that the service functions resolve to. -/
inductive JsRet where
  | tables (rows : List Table)
  | table (row : Option Table)
  | people (p : Option Int)
  | count (n : Nat)
deriving DecidableEq, Repr

/-- Running one service function on an argument.  `Except.error` is a rejected
promise: an argument without the property the query binds (knex refuses an
undefined binding) or with columns the target table does not have. -/
def ServiceFn.call : ServiceFn → JsArg → Db → Except String JsRet × Db
  | .list, _, db => (.ok (.tables (TablesService.list db)), db)
  | .create, .tableData t, db =>
      let r := TablesService.create t db
      (.ok (.table r.1), r.2)
  | .read, .id n, db => (.ok (.table (TablesService.read n db)), db)
  | .readReservation, .id n, db => (.ok (.people (TablesService.readReservation n db)), db)
  | .update, .tableData t, db =>
      let r := TablesService.update t db
      (.ok (.tables r.1), r.2)
  | .updateStatus, .reservation (some r), db =>
      let u := TablesService.updateStatus r db
      (.ok (.count u.1), u.2)
  | .destroy, .id n, db =>
      let r := TablesService.destroy n db
      (.ok (.tables r.1), r.2)
  | _, _, db => (.error "query failed", db)

/-- The call `service.name(arg)` of the controller: property lookup on the
exported object, then the call; a missing property is not a function. -/
def callTablesService (name : String) (arg : JsArg) (db : Db) : Except String JsRet × Db :=
  match tablesServiceExports.lookup name with
  | some f => f.call arg db
  | none => (.error ("TypeError: service." ++ name ++ " is not a function"), db)

/-! ## Requests, responses and middleware chains -/

/-- A JavaScript number: a finite value (every finite double is a rational), an
infinity or NaN. -/
inductive JsNumber where
  | finite (q : ℚ)
  | posInf
  | negInf
  | nan
deriving DecidableEq

/-- A JSON-borne JavaScript value as it appears in a request body. -/
inductive JsVal where
  | undefined
  | null
  | bool (b : Bool)
  | num (x : JsNumber)
  | str (s : String)
  | object
deriving DecidableEq

/-- The conversions of the language runtime that the validation relies on:
`ToNumber` (used by `<=` on an operand that is not a number) and the string
conversion of a template literal. -/
structure JsRuntime where
  toNumber : JsVal → JsNumber
  toStr : JsVal → String

/-- The test `typeof v === "number"`. -/
def JsVal.isNumber : JsVal → Bool
  | .num _ => true
  | _ => false

/-- The comparison `x <= 0` on numbers; NaN compares false. -/
def JsNumber.leZero : JsNumber → Bool
  | .finite q => decide (q ≤ 0)
  | .posInf => false
  | .negInf => true
  | .nan => false

/-- The comparison `v <= 0`: a number is compared as it is, any other value
after `ToNumber`. -/
def jsLeZero (rt : JsRuntime) : JsVal → Bool
  | .num x => x.leZero
  | v => (rt.toNumber v).leZero

/-- The `length` of a JavaScript string: its number of UTF-16 code units. -/
def jsLength (s : List Char) : Nat :=
  (s.map (fun c => if c.toNat < 65536 then 1 else 2)).sum

/-- The object `req.body.data`; an absent property reads as `undefined`.  The
`reservation_id` of a seat request is a number or absent. -/
structure Data where
  table_name : JsVal
  capacity : JsVal
  reservation_id : Option Nat

/-- A request: `req.params.table_id` and `req.body.data`. -/
structure Req where
  table_id : Nat
  data : Option Data

/-- The values kept in `res.locals`. -/
structure Locals where
  table : Option Table
  people : Option Int
deriving DecidableEq, Repr

/-- How a chain ends: a JSON response, a bare status, an error object handed on
with `next({status, message})`, an exception (or rejected promise) raised inside
a middleware, or no response because the chain ran out. -/
inductive Outcome where
  | json (status : Nat) (data : JsRet)
  | sendStatus (status : Nat)
  | error (status : Nat) (message : String)
  | threw (message : String)
  | unhandled
deriving DecidableEq, Repr

/-- One middleware either calls `next()` or ends the request. -/
inductive Step where
  | next (locals : Locals) (db : Db)
  | done (outcome : Outcome) (db : Db)
deriving DecidableEq, Repr

/-- A middleware reads the request, `res.locals` and the database. -/
abbrev Middleware := Req → Locals → Db → Step

/-- Express runs the middlewares of a route in order until one does not call
`next()`. -/
def runChain : List Middleware → Req → Locals → Db → Outcome × Db
  | [], _, _, db => (.unhandled, db)
  | m :: ms, req, l, db =>
    match m req l db with
    | .next l1 db1 => runChain ms req l1 db1
    | .done o db1 => (o, db1)

/-- Running middlewares as long as each calls `next()`: the `res.locals` and the
database with which the next middleware of the route is entered, if it is. -/
def passAll : List Middleware → Req → Locals → Db → Option (Locals × Db)
  | [], _, l, db => some (l, db)
  | m :: ms, req, l, db =>
    match m req l db with
    | .next l1 db1 => passAll ms req l1 db1
    | .done _ _ => none

/-- The state of `res.locals` when a request arrives. -/
def Locals.empty : Locals := { table := none, people := none }

/-! ## tables.controller.js -/

/-- Source `VALID_PROPERTIES`. -/
def VALID_PROPERTIES : List String := ["table_name", "capacity"]

/-- Reading a property of `req.body.data` by name for `hasRequiredFields`. -/
def Data.has (data : Data) (property : String) : Bool :=
  if property = "table_name" then data.table_name != .undefined
  else if property = "capacity" then data.capacity != .undefined
  else if property = "reservation_id" then data.reservation_id.isSome
  else false

/-- Source `hasRequiredFields`: the first of `VALID_PROPERTIES` that the body
lacks is reported with status 400. -/
def hasRequiredFields : Middleware := fun req l db =>
  let has : String → Bool := fun property =>
    match req.data with
    | some data => data.has property
    | none => false
  match VALID_PROPERTIES.find? (fun property => !(has property)) with
  | some property => .done (.error 400 ("Must include a " ++ property ++ " field.")) db
  | none => .next l db

/-- Source `hasValidFieldInputs`. -/
def hasValidFieldInputs (rt : JsRuntime) : Middleware := fun req l db =>
  match req.data with
  | none => .done (.threw "TypeError: cannot destructure req.body.data") db
  | some data =>
    if jsLeZero rt data.capacity || !(data.capacity.isNumber) then
      .done (.error 400
        ("Table capacity must be at least one. You entered: " ++ rt.toStr data.capacity ++ ".")) db
    else
      match data.table_name with
      | .str s =>
        let table_name := s.toList.erase (Char.ofNat 32)
        if jsLength table_name ≤ 1 then
          .done (.error 400 "Please enter a table_name that is at least 2 characters.") db
        else if table_name = [] then
          .done (.error 400 "Please provide a table_name.") db
        else .next l db
      | _ => .done (.threw "TypeError: table_name.replace is not a function") db

/-- Source `tableExists`. -/
def tableExists : Middleware := fun req l db =>
  match callTablesService "read" (.id req.table_id) db with
  | (.ok (.table (some table)), db1) => .next { l with table := some table } db1
  | (.ok _, db1) =>
    .done (.error 404 ("Table " ++ toString req.table_id ++ " cannot be found.")) db1
  | (.error e, db1) => .done (.threw e) db1

/-- Truthiness of a nullable id: NULL and 0 are falsy. -/
def truthyId : Option Nat → Bool
  | some n => n != 0
  | none => false

/-- Source `tableIsAvailable`. -/
def tableIsAvailable : Middleware := fun _ l db =>
  match l.table with
  | none => .done (.threw "TypeError: cannot read reservation_id of undefined") db
  | some table =>
    if truthyId table.reservation_id then
      .done (.error 400 "Reservation cannot be seated. Table is occupied.") db
    else .next l db

/-- Source `tableNotOccupied`. -/
def tableNotOccupied : Middleware := fun _ l db =>
  match l.table with
  | none => .done (.threw "TypeError: cannot read reservation_id of undefined") db
  | some table =>
    if !(truthyId table.reservation_id) then
      .done (.error 400 "Table is not occupied") db
    else .next l db

/-- Source `reservationExists`. -/
def reservationExists : Middleware := fun req l db =>
  match req.data with
  | none => .done (.error 400 "Missing valid reservation_id.") db
  | some data =>
    if !(truthyId data.reservation_id) then
      .done (.error 400 "Missing valid reservation_id.") db
    else
      let reservation_id := data.reservation_id.getD 0
      match callTablesService "readReservation" (.id reservation_id) db with
      | (.ok (.people (some people)), db1) => .next { l with people := some people } db1
      | (.ok _, db1) =>
        .done (.error 404 ("Reservation " ++ toString reservation_id ++ " cannot be found.")) db1
      | (.error e, db1) => .done (.threw e) db1

/-- Source `tableHasCapacity`.  With `people` undefined the comparison is false. -/
def tableHasCapacity : Middleware := fun _ l db =>
  match l.table with
  | none => .done (.threw "TypeError: cannot read capacity of undefined") db
  | some table =>
    match l.people with
    | some people =>
      if people > table.capacity then
        .done (.error 400 ("Table " ++ table.table_name ++ " does not have a capacity of "
          ++ toString people ++ " people.")) db
      else .next l db
    | none => .next l db

/-- Source `update`, the seat handler: write the table, then mark the
reservation, then answer 200 with the rows the table write returned. -/
def update : Middleware := fun req l db =>
  match l.table, req.data with
  | some table, some data =>
    let newTableData : Table := { table with reservation_id := data.reservation_id }
    match callTablesService "update" (.tableData newTableData) db with
    | (.error e, db1) => .done (.threw e) db1
    | (.ok rows, db1) =>
      match callTablesService "updateReservationStatus" (.tableData newTableData) db1 with
      | (.error e, db2) => .done (.threw e) db2
      | (.ok _, db2) => .done (.json 200 rows) db2
  | _, _ => .done (.threw "TypeError: cannot read properties of undefined") db

/-- Source `reservationIsNotAlreadySeated`; `read` is an export of
reservations.service.js. -/
def reservationIsNotAlreadySeated : Middleware := fun req l db =>
  match req.data with
  | none => .done (.threw "TypeError: cannot read reservation_id of undefined") db
  | some data =>
    match data.reservation_id with
    | none => .done (.threw "Undefined binding(s) detected") db
    | some reservation_id =>
      match ReservationsService.read reservation_id db with
      | none => .done (.threw "TypeError: cannot read status of undefined") db
      | some reservation =>
        if reservation.status == "seated" then
          .done (.error 400 "Reservation is already seated") db
        else .next l db

/-- Source `destroy`, the finish handler: free the table, read the reservation
the table pointed to, mark it finished, answer 200. -/
def destroy : Middleware := fun _ l db =>
  match l.table with
  | none => .done (.threw "TypeError: cannot read table_id of undefined") db
  | some table =>
    match callTablesService "delete" (.id table.table_id) db with
    | (.error e, db1) => .done (.threw e) db1
    | (.ok _, db1) =>
      let reservation := table.reservation_id.bind (fun r => ReservationsService.read r db1)
      match callTablesService "finishedStatus" (.reservation reservation) db1 with
      | (.error e, db2) => .done (.threw e) db2
      | (.ok _, db2) => .done (.sendStatus 200) db2

/-- Source `module.exports.create` without its last element: the two
validations that precede the insert. -/
def createValidation (rt : JsRuntime) : List Middleware :=
  [hasRequiredFields, hasValidFieldInputs rt]

/-- The five validations of `module.exports.update`, in their order. -/
def seatGuards : List Middleware :=
  [tableExists, reservationExists, tableHasCapacity, tableIsAvailable,
   reservationIsNotAlreadySeated]

/-- Source `module.exports.update`: the seat chain, the validations followed by
the `update` handler. -/
def seatChain : List Middleware :=
  seatGuards ++ [update]

/-- Source `module.exports.delete`: the finish chain. -/
def finishChain : List Middleware :=
  [tableExists, tableNotOccupied, destroy]

/-- A seat request `PUT /tables/:table_id/seat` with body
`data.reservation_id`. -/
def seatRequest (table_id reservation_id : Nat) : Req :=
  { table_id := table_id,
    data := some { table_name := .undefined, capacity := .undefined,
                   reservation_id := some reservation_id } }

/-- A finish request `DELETE /tables/:table_id/seat`; it has no body. -/
def finishRequest (table_id : Nat) : Req :=
  { table_id := table_id, data := none }

/-- A create request `POST /tables` with body `data.table_name` and
`data.capacity`; the route has no parameter. -/
def createRequest (table_name capacity : JsVal) : Req :=
  { table_id := 0,
    data := some { table_name := table_name, capacity := capacity, reservation_id := none } }

/-- Running the seat chain on a fresh request. -/
def seat (table_id reservation_id : Nat) (db : Db) : Outcome × Db :=
  runChain seatChain (seatRequest table_id reservation_id) Locals.empty db

/-- Running the finish chain on a fresh request. -/
def finish (table_id : Nat) (db : Db) : Outcome × Db :=
  runChain finishChain (finishRequest table_id) Locals.empty db

/-! ## Sample database states -/

/-- Two free tables of capacity 4 and one booked reservation for two people. -/
def bookedDb : Db :=
  { tables := [⟨1, "Bar #1", 4, true, none⟩, ⟨2, "Bar #2", 4, true, none⟩],
    reservations := [⟨1, "Ada", "Lee", some "(555) 123-4567", 20, 1800, 2, "booked"⟩] }

/-- Table 1 occupied by reservation 1, which is seated; table 2 free. -/
def seatedDb : Db :=
  { tables := [⟨1, "Bar #1", 4, false, some 1⟩, ⟨2, "Bar #2", 4, true, none⟩],
    reservations := [⟨1, "Ada", "Lee", some "(555) 123-4567", 20, 1800, 2, "seated"⟩] }

/-- A table of capacity 2 and a booked reservation for six people. -/
def smallTableDb : Db :=
  { tables := [⟨1, "Bar #1", 2, true, none⟩],
    reservations := [⟨1, "Ada", "Lee", some "(555) 123-4567", 20, 1800, 6, "booked"⟩] }

/-! ## Invariants of the `tables` rows -/

/-- The rows of `tables` that reference reservation `r`. -/
def tablesOf (r : Nat) (db : Db) : List Table :=
  db.tables.filter (fun t => t.reservation_id == some r)


/-- On every table, `reservation_id` is non-null exactly when `is_free` is
false. -/
def occupancyInvariant (db : Db) : Prop :=
  ∀ t ∈ db.tables, (t.reservation_id ≠ none ↔ t.is_free = false)

/-- The row `new` is the row `old` up to `reservation_id` and `is_free`, and is
`old` itself unless its `table_id` is the given one. -/
def sameRowExceptSeat (table_id : Nat) (old new : Table) : Prop :=
  new.table_id = old.table_id ∧ new.table_name = old.table_name ∧
    new.capacity = old.capacity ∧ (old.table_id ≠ table_id → new = old)

/-- A write that touched nothing but the seat columns of the rows with the
given `table_id`: same reservations, and the tables row by row the same up to
those columns. -/
def writesOnlySeatOf (table_id : Nat) (db db1 : Db) : Prop :=
  db1.reservations = db.reservations ∧
    List.Forall₂ (sameRowExceptSeat table_id) db.tables db1.tables

/-! ## Lemmas on ordering -/

theorem orderedInsertBy_perm {α : Type} (le : α → α → Bool) (a : α) (l : List α) :
    (orderedInsertBy le a l).Perm (a :: l) := by
  induction l with
  | nil => simp [orderedInsertBy]
  | cons b l ih =>
    unfold orderedInsertBy
    split
    · exact List.Perm.refl _
    · exact ((List.Perm.cons b ih).trans (List.Perm.swap a b l))

theorem orderBy_perm {α : Type} (le : α → α → Bool) (l : List α) :
    (orderBy le l).Perm l := by
  induction l with
  | nil => simp [orderBy]
  | cons a l ih =>
    unfold orderBy
    exact (orderedInsertBy_perm le a _).trans (List.Perm.cons a ih)

theorem orderedInsertBy_pairwise {α : Type} (key : α → Nat) (a : α) (l : List α)
    (h : l.Pairwise (fun x y => key x ≤ key y)) :
    (orderedInsertBy (fun x y => decide (key x ≤ key y)) a l).Pairwise
      (fun x y => key x ≤ key y) := by
  induction l with
  | nil => simp [orderedInsertBy]
  | cons b l ih =>
    rw [List.pairwise_cons] at h
    unfold orderedInsertBy
    split
    · rename_i hab
      have hab1 : key a ≤ key b := by simpa using hab
      refine List.pairwise_cons.mpr ⟨?_, List.pairwise_cons.mpr h⟩
      intro x hx
      rcases List.mem_cons.mp hx with rfl | hx
      · exact hab1
      · exact le_trans hab1 (h.1 x hx)
    · rename_i hab
      have hba : key b ≤ key a := by
        have : ¬ key a ≤ key b := by simpa using hab
        omega
      refine List.pairwise_cons.mpr ⟨?_, ih h.2⟩
      intro x hx
      have hx1 : x ∈ a :: l := (orderedInsertBy_perm _ a l).mem_iff.mp hx
      rcases List.mem_cons.mp hx1 with rfl | hx2
      · exact hba
      · exact h.1 x hx2

theorem orderBy_pairwise {α : Type} (key : α → Nat) (l : List α) :
    (orderBy (fun x y => decide (key x ≤ key y)) l).Pairwise (fun x y => key x ≤ key y) := by
  induction l with
  | nil => simp [orderBy]
  | cons a l ih =>
    unfold orderBy
    exact orderedInsertBy_pairwise key a _ ih

/-! ## Lemmas on `translate` and `LIKE` -/

theorem translateChar_delete (c : Char) (src : List Char) :
    translateChar c src [] = if c ∈ src then [] else [c] := by
  induction src with
  | nil => simp [translateChar]
  | cons a src ih =>
    unfold translateChar
    by_cases h : c = a
    · simp [h]
    · simp [h, ih]

theorem sqlTranslate_delete (s src : List Char) :
    sqlTranslate s src [] = s.filter (fun c => decide (c ∉ src)) := by
  unfold sqlTranslate
  induction s with
  | nil => simp
  | cons c s ih =>
    rw [List.map_cons, List.flatten_cons, ih, translateChar_delete]
    by_cases h : c ∈ src
    · simp [h]
    · simp [h]

theorem sqlLike_any_nil (p : List Char) :
    sqlLike (likeAny :: p) [] = sqlLike p [] := by
  rw [sqlLike]
  simp

theorem sqlLike_any_cons (p : List Char) (c : Char) (t : List Char) :
    sqlLike (likeAny :: p) (c :: t) = (sqlLike p (c :: t) || sqlLike (likeAny :: p) t) := by
  conv_lhs => rw [sqlLike.eq_def]
  simp

theorem sqlLike_literal_nil (a : Char) (p : List Char) (ha : likeLiteral a) :
    sqlLike (a :: p) [] = false := by
  rw [sqlLike]
  simp [ha.1]

theorem sqlLike_literal_cons (a : Char) (p : List Char) (c : Char) (t : List Char)
    (ha : likeLiteral a) :
    sqlLike (a :: p) (c :: t) = (a == c && sqlLike p t) := by
  conv_lhs => rw [sqlLike.eq_def]
  simp [ha.1, ha.2.1, ha.2.2]

theorem sqlLike_any_iff (p t : List Char) :
    sqlLike (likeAny :: p) t = true ↔ ∃ a b, t = a ++ b ∧ sqlLike p b = true := by
  induction t with
  | nil =>
    rw [sqlLike_any_nil]
    constructor
    · intro h
      exact ⟨[], [], rfl, h⟩
    · rintro ⟨a, b, hab, h⟩
      have hb : b = [] := (List.append_eq_nil.mp hab.symm).2
      rw [hb] at h
      exact h
  | cons c t ih =>
    rw [sqlLike_any_cons, Bool.or_eq_true, ih]
    constructor
    · rintro (h | ⟨a, b, hab, h⟩)
      · exact ⟨[], c :: t, rfl, h⟩
      · exact ⟨c :: a, b, by rw [hab]; rfl, h⟩
    · rintro ⟨a, b, hab, h⟩
      cases a with
      | nil =>
        left
        have hb : b = c :: t := by simpa using hab.symm
        rw [← hb]
        exact h
      | cons x a =>
        right
        have h2 : c = x ∧ t = a ++ b := by simpa using hab
        exact ⟨a, b, h2.2, h⟩

theorem sqlLike_literals_iff (ds p : List Char) (hds : ∀ x ∈ ds, likeLiteral x) (t : List Char) :
    sqlLike (ds ++ p) t = true ↔ ∃ b, t = ds ++ b ∧ sqlLike p b = true := by
  induction ds generalizing t with
  | nil => simp
  | cons d ds ih =>
    have hd : likeLiteral d := hds d (List.mem_cons_self d ds)
    have hrest : ∀ x ∈ ds, likeLiteral x := fun x hx => hds x (List.mem_cons_of_mem d hx)
    cases t with
    | nil =>
      rw [List.cons_append, sqlLike_literal_nil d _ hd]
      simp
    | cons c t =>
      rw [List.cons_append, sqlLike_literal_cons d _ c t hd, Bool.and_eq_true, ih hrest]
      constructor
      · rintro ⟨hdc, b, hb, h⟩
        have hdc1 : d = c := by simpa using hdc
        exact ⟨b, by rw [hdc1, hb]; rfl, h⟩
      · rintro ⟨b, hb, h⟩
        have h2 : c = d ∧ t = ds ++ b := by simpa using hb
        exact ⟨by simp [h2.1], b, h2.2, h⟩

theorem sqlLike_any_alone (t : List Char) : sqlLike [likeAny] t = true := by
  rw [sqlLike_any_iff]
  refine ⟨t, [], by simp, ?_⟩
  rw [sqlLike]

theorem isDigit_likeLiteral (c : Char) (h : c.isDigit = true) : likeLiteral c := by
  refine ⟨?_, ?_, ?_⟩ <;> intro hc <;> rw [hc] at h <;> revert h <;> decide

/-- A text matches `%ds%` for digits `ds` exactly when `ds` occurs in it as a
contiguous run. -/
theorem sqlLike_contains_iff (ds t : List Char) (hds : ∀ x ∈ ds, x.isDigit = true) :
    sqlLike ([likeAny] ++ ds ++ [likeAny]) t = true ↔ ∃ a b, t = a ++ ds ++ b := by
  have hlit : ∀ x ∈ ds, likeLiteral x := fun x hx => isDigit_likeLiteral x (hds x hx)
  have hshape : [likeAny] ++ ds ++ [likeAny] = likeAny :: (ds ++ [likeAny]) := by simp
  rw [hshape, sqlLike_any_iff]
  constructor
  · rintro ⟨a, b, hab, h⟩
    obtain ⟨b1, hb1, _⟩ := (sqlLike_literals_iff ds [likeAny] hlit b).mp h
    exact ⟨a, b1, by rw [hab, hb1, List.append_assoc]⟩
  · rintro ⟨a, b, hab⟩
    refine ⟨a, ds ++ b, by rw [hab, List.append_assoc], ?_⟩
    exact (sqlLike_literals_iff ds [likeAny] hlit _).mpr ⟨b, rfl, sqlLike_any_alone b⟩

/-! ## The reservation list -/

/-- C8: `list(d)` returns exactly the rows whose `reservation_date` is `d` and
whose status is not `finished`, each as often as it is stored and no other row,
in non-decreasing order of `reservation_time`. -/
theorem list_returns_unfinished_of_date_in_time_order (d : Nat) (db : Db) :
    (ReservationsService.list d db).Perm
        (db.reservations.filter
          (fun r => decide (r.reservation_date = d ∧ r.status ≠ "finished")))
      ∧ (∀ r : Reservation, r ∈ ReservationsService.list d db ↔
          r ∈ db.reservations ∧ r.reservation_date = d ∧ r.status ≠ "finished")
      ∧ (ReservationsService.list d db).Pairwise
          (fun a b => a.reservation_time ≤ b.reservation_time) := by
  have hperm : (ReservationsService.list d db).Perm
      (db.reservations.filter
        (fun r => decide (r.reservation_date = d ∧ r.status ≠ "finished"))) := by
    unfold ReservationsService.list
    refine (orderBy_perm _ _).trans ?_
    rw [List.filter_filter]
    have hfun : (fun r : Reservation => (!(r.status == "finished") && (r.reservation_date == d)))
        = (fun r : Reservation => decide (r.reservation_date = d ∧ r.status ≠ "finished")) := by
      funext r
      by_cases h1 : r.reservation_date = d <;> by_cases h2 : r.status = "finished" <;>
        simp [h1, h2]
    rw [hfun]
  refine ⟨hperm, ?_, ?_⟩
  · intro r
    rw [hperm.mem_iff, List.mem_filter]
    simp
  · exact orderBy_pairwise (fun r : Reservation => r.reservation_time) _

/-! ## Search by phone number -/

theorem sqlTranslate_phone (m : String) :
    sqlTranslate m.toList "() -".toList [] = stripPhone m := by
  rw [sqlTranslate_delete]
  unfold stripPhone
  apply List.filter_congr
  intro c _
  have hl : "() -".toList = [Char.ofNat 40, Char.ofNat 41, Char.ofNat 32, Char.ofNat 45] := by
    decide
  rw [hl]
  simp

theorem isDigit_eq_isDecimalDigit (c : Char) : c.isDigit = isDecimalDigit c := by
  apply Bool.eq_iff_iff.mpr
  unfold isDecimalDigit
  have hl : "0123456789".toList = [Char.ofNat 48, Char.ofNat 49, Char.ofNat 50, Char.ofNat 51,
      Char.ofNat 52, Char.ofNat 53, Char.ofNat 54, Char.ofNat 55, Char.ofNat 56,
      Char.ofNat 57] := by decide
  rw [hl, decide_eq_true_iff]
  constructor
  · intro h
    have h1 : 48 ≤ c.toNat ∧ c.toNat ≤ 57 := by
      simp only [Char.isDigit, Bool.and_eq_true, decide_eq_true_eq, ge_iff_le] at h
      exact ⟨h.1, h.2⟩
    have hc : c = Char.ofNat c.toNat := (Char.ofNat_toNat c).symm
    obtain ⟨h48, h57⟩ := h1
    rw [hc]
    interval_cases c.toNat <;> simp
  · intro h
    simp only [List.mem_cons, List.mem_singleton, List.not_mem_nil, or_false] at h
    rcases h with h | h | h | h | h | h | h | h | h | h <;> rw [h] <;> decide

/-- The regular expression of `search` keeps the digits of the query and nothing
else. -/
theorem jsDigitsOnly_eq_queryDigits (q : String) : jsDigitsOnly q = queryDigits q := by
  unfold jsDigitsOnly queryDigits
  induction q.toList with
  | nil => rfl
  | cons c cs ih =>
    unfold deleteNonDigits
    rw [List.filter_cons, isDigit_eq_isDecimalDigit, ih]

theorem deleteNonDigits_of_no_digit (l : List Char)
    (h : ∀ c ∈ l, isDecimalDigit c = false) : deleteNonDigits l = [] := by
  induction l with
  | nil => rfl
  | cons c cs ih =>
    unfold deleteNonDigits
    rw [h c (List.mem_cons_self c cs)]
    exact ih (fun x hx => h x (List.mem_cons_of_mem c hx))

theorem queryDigits_of_no_digit (q : String)
    (h : ∀ c ∈ q.toList, isDecimalDigit c = false) : queryDigits q = [] :=
  deleteNonDigits_of_no_digit q.toList h

theorem search_selects_iff (q : String) (r : Reservation) :
    (match r.mobile_number with
      | some m => sqlLike ([likeAny] ++ jsDigitsOnly q ++ [likeAny])
          (sqlTranslate m.toList "() -".toList [])
      | none => false) = true ↔ phoneContains q r := by
  have hds : ∀ x ∈ jsDigitsOnly q, x.isDigit = true := by
    intro x hx
    unfold jsDigitsOnly at hx
    exact (List.mem_filter.mp hx).2
  unfold phoneContains
  rw [← jsDigitsOnly_eq_queryDigits]
  cases hm : r.mobile_number with
  | none => simp
  | some m =>
    simp only [sqlTranslate_phone, sqlLike_contains_iff _ _ hds]
    constructor
    · rintro ⟨a, b, h⟩
      exact ⟨m, rfl, a, b, h⟩
    · rintro ⟨m1, hm1, a, b, h⟩
      have : m = m1 := by simpa using hm1
      subst this
      exact ⟨a, b, h⟩

/-- C9: `search(q)` returns exactly the reservations whose phone number, with
`(`, `)`, space and `-` deleted, contains as a contiguous run the string
obtained from `q` by deleting every non-digit character (each row as often as
it is stored), ordered by non-decreasing `reservation_date`; a query without
any digit returns every reservation that has a phone number. -/
theorem search_returns_matching_phone_numbers_in_date_order (q : String) (db : Db) :
    (∀ r : Reservation, r ∈ ReservationsService.search q db ↔
        r ∈ db.reservations ∧ phoneContains q r)
      ∧ (∀ r : Reservation, phoneContains q r →
          (ReservationsService.search q db).count r = db.reservations.count r)
      ∧ (ReservationsService.search q db).Pairwise
          (fun a b => a.reservation_date ≤ b.reservation_date)
      ∧ ((∀ c ∈ q.toList, isDecimalDigit c = false) →
          (ReservationsService.search q db).Perm
            (db.reservations.filter (fun r => r.mobile_number.isSome))) := by
  have hperm := orderBy_perm
    (fun a b : Reservation => decide (a.reservation_date ≤ b.reservation_date))
    (db.reservations.filter (fun r =>
      match r.mobile_number with
      | some m => sqlLike ([likeAny] ++ jsDigitsOnly q ++ [likeAny])
          (sqlTranslate m.toList "() -".toList [])
      | none => false))
  refine ⟨?_, ?_, ?_, ?_⟩
  · intro r
    unfold ReservationsService.search
    rw [hperm.mem_iff, List.mem_filter, search_selects_iff]
  · intro r hr
    unfold ReservationsService.search
    rw [hperm.count_eq]
    exact List.count_filter ((search_selects_iff q r).mpr hr)
  · exact orderBy_pairwise (fun r : Reservation => r.reservation_date) _
  · intro hq
    unfold ReservationsService.search
    refine hperm.trans ?_
    apply List.Perm.of_eq
    apply List.filter_congr
    intro r _
    apply Bool.eq_iff_iff.mpr
    rw [search_selects_iff]
    unfold phoneContains
    rw [queryDigits_of_no_digit q hq]
    constructor
    · rintro ⟨m, hm, _⟩
      simp [hm]
    · intro h
      obtain ⟨m, hm⟩ := Option.isSome_iff_exists.mp h
      exact ⟨m, hm, stripPhone m, [], by simp⟩

/-- A query without digits, on a table holding a row without phone number. -/
theorem search_returns_matching_phone_numbers_in_date_order_witness :
    (∀ c ∈ "n/a".toList, isDecimalDigit c = false) ∧
    (ReservationsService.search "n/a"
        { tables := [],
          reservations := [⟨1, "Ada", "Lee", some "(555) 123-4567", 2, 0, 2, "booked"⟩,
                           ⟨2, "Bo", "Ray", none, 1, 0, 3, "booked"⟩] }).Perm
      ([⟨1, "Ada", "Lee", some "(555) 123-4567", 2, 0, 2, "booked"⟩,
        ⟨2, "Bo", "Ray", none, 1, 0, 3, "booked"⟩].filter
          (fun r : Reservation => r.mobile_number.isSome)) :=
  ⟨by decide, (search_returns_matching_phone_numbers_in_date_order "n/a" _).2.2.2 (by decide)⟩

/-! ## The two table writes -/

theorem forall₂_map_right {α : Type} (R : α → α → Prop) (f : α → α)
    (h : ∀ a, R a (f a)) (l : List α) : List.Forall₂ R l (l.map f) := by
  induction l with
  | nil => exact List.Forall₂.nil
  | cons a l ih => exact List.Forall₂.cons (h a) ih

/-- C4: with a present `reservation_id` in its argument, `update` keeps the
occupancy invariant, and so does `destroy`; each of the two writes leaves the
reservations alone and changes, on the rows with the matching `table_id` only,
nothing but `reservation_id` and `is_free`; and `reservationExists` lets a
request through only when its `data.reservation_id` is present and not 0. -/
theorem table_writes_keep_occupancy_invariant (db : Db) (newTableData : Table)
    (table_id : Nat) (hinv : occupancyInvariant db)
    (hrid : newTableData.reservation_id ≠ none) :
    occupancyInvariant (TablesService.update newTableData db).2
      ∧ occupancyInvariant (TablesService.destroy table_id db).2
      ∧ writesOnlySeatOf newTableData.table_id db (TablesService.update newTableData db).2
      ∧ writesOnlySeatOf table_id db (TablesService.destroy table_id db).2
      ∧ (∀ t ∈ (TablesService.update newTableData db).2.tables,
          t.table_id = newTableData.table_id →
            t.reservation_id = newTableData.reservation_id ∧ t.is_free = false)
      ∧ (∀ t ∈ (TablesService.destroy table_id db).2.tables,
          t.table_id = table_id → t.reservation_id = none ∧ t.is_free = true)
      ∧ (∀ (req : Req) (l l1 : Locals) (db0 db1 : Db),
          reservationExists req l db0 = .next l1 db1 →
            ∃ data r, req.data = some data ∧ data.reservation_id = some r ∧ r ≠ 0) := by
  refine ⟨?_, ?_, ⟨rfl, ?_⟩, ⟨rfl, ?_⟩, ?_, ?_, ?_⟩
  · intro t ht
    simp only [TablesService.update, List.mem_map] at ht
    obtain ⟨t0, ht0, rfl⟩ := ht
    by_cases h : t0.table_id = newTableData.table_id
    · simp [h, hrid]
    · simpa [h] using hinv t0 ht0
  · intro t ht
    simp only [TablesService.destroy, List.mem_map] at ht
    obtain ⟨t0, ht0, rfl⟩ := ht
    by_cases h : t0.table_id = table_id
    · simp [h]
    · simpa [h] using hinv t0 ht0
  · apply forall₂_map_right
    intro t
    by_cases h : t.table_id = newTableData.table_id
    · simp [sameRowExceptSeat, h]
    · simp [sameRowExceptSeat, h]
  · apply forall₂_map_right
    intro t
    by_cases h : t.table_id = table_id
    · simp [sameRowExceptSeat, h]
    · simp [sameRowExceptSeat, h]
  · intro t ht hid
    simp only [TablesService.update, List.mem_map] at ht
    obtain ⟨t0, _, rfl⟩ := ht
    by_cases h : t0.table_id = newTableData.table_id
    · simp [h]
    · simp [h] at hid
  · intro t ht hid
    simp only [TablesService.destroy, List.mem_map] at ht
    obtain ⟨t0, _, rfl⟩ := ht
    by_cases h : t0.table_id = table_id
    · simp [h]
    · simp [h] at hid
  · intro req l l1 db0 db1 h
    unfold reservationExists at h
    cases hdata : req.data with
    | none => simp [hdata] at h
    | some data =>
      cases hr : data.reservation_id with
      | none => simp [hdata, hr, truthyId] at h
      | some r =>
        refine ⟨data, r, rfl, hr, ?_⟩
        intro h0
        simp [hdata, hr, truthyId, h0] at h

/-- The two writes on the state in which table 1 is occupied. -/
theorem table_writes_keep_occupancy_invariant_witness :
    occupancyInvariant seatedDb
      ∧ occupancyInvariant
          (TablesService.update ⟨2, "Bar #2", 4, true, some 1⟩ seatedDb).2
      ∧ occupancyInvariant (TablesService.destroy 1 seatedDb).2 :=
  have h : occupancyInvariant seatedDb := by
    unfold occupancyInvariant seatedDb
    decide
  have hw := table_writes_keep_occupancy_invariant seatedDb
    ⟨2, "Bar #2", 4, true, some 1⟩ 1 h (by decide)
  ⟨h, hw.1, hw.2.1⟩

/-! ## Calls of the controller resolved on the exported object -/

theorem call_read (n : Nat) (db : Db) :
    callTablesService "read" (.id n) db = (.ok (.table (TablesService.read n db)), db) := by
  rfl

theorem call_readReservation (n : Nat) (db : Db) :
    callTablesService "readReservation" (.id n) db
      = (.ok (.people (TablesService.readReservation n db)), db) := by
  rfl

theorem call_update (t : Table) (db : Db) :
    callTablesService "update" (.tableData t) db
      = (.ok (.tables (TablesService.update t db).1), (TablesService.update t db).2) := by
  rfl

theorem call_updateReservationStatus (a : JsArg) (db : Db) :
    callTablesService "updateReservationStatus" a db
      = (.error "TypeError: service.updateReservationStatus is not a function", db) := by
  rfl

theorem call_delete (a : JsArg) (db : Db) :
    callTablesService "delete" a db
      = (.error "TypeError: service.delete is not a function", db) := by
  rfl

theorem tableExists_eq (req : Req) (l : Locals) (db : Db) :
    tableExists req l db =
      match TablesService.read req.table_id db with
      | some table => .next { l with table := some table } db
      | none => .done (.error 404 ("Table " ++ toString req.table_id ++ " cannot be found.")) db := by
  unfold tableExists
  rw [call_read]
  cases TablesService.read req.table_id db <;> rfl

theorem reservationExists_seatRequest (t r : Nat) (l : Locals) (db : Db) :
    reservationExists (seatRequest t r) l db =
      if r = 0 then .done (.error 400 "Missing valid reservation_id.") db
      else
        match TablesService.readReservation r db with
        | some people => .next { l with people := some people } db
        | none => .done (.error 404 ("Reservation " ++ toString r ++ " cannot be found.")) db := by
  unfold reservationExists seatRequest
  by_cases h0 : r = 0
  · simp [truthyId, h0]
  · simp only [truthyId, Option.getD_some, call_readReservation]
    simp only [h0, if_false]
    cases TablesService.readReservation r db <;> simp [h0]

/-- What the `update` handler does once the validations let it run. -/
theorem update_seatRequest (t r : Nat) (table : Table) (people : Option Int) (db : Db) :
    update (seatRequest t r) { table := some table, people := people } db =
      .done (.threw "TypeError: service.updateReservationStatus is not a function")
        (TablesService.update { table with reservation_id := some r } db).2 := by
  unfold update seatRequest
  simp only [call_update, call_updateReservationStatus]

/-- The seat chain, case by case. -/
theorem seat_eq (t r : Nat) (db : Db) :
    seat t r db =
      match TablesService.read t db with
      | none => (.error 404 ("Table " ++ toString t ++ " cannot be found."), db)
      | some table =>
        if r = 0 then (.error 400 "Missing valid reservation_id.", db)
        else
          match TablesService.readReservation r db with
          | none => (.error 404 ("Reservation " ++ toString r ++ " cannot be found."), db)
          | some people =>
            if people > table.capacity then
              (.error 400 ("Table " ++ table.table_name ++ " does not have a capacity of "
                ++ toString people ++ " people."), db)
            else if truthyId table.reservation_id then
              (.error 400 "Reservation cannot be seated. Table is occupied.", db)
            else
              match ReservationsService.read r db with
              | none => (.threw "TypeError: cannot read status of undefined", db)
              | some reservation =>
                if reservation.status == "seated" then
                  (.error 400 "Reservation is already seated", db)
                else
                  (.threw "TypeError: service.updateReservationStatus is not a function",
                    (TablesService.update { table with reservation_id := some r } db).2) := by
  unfold seat seatChain seatGuards
  simp only [List.cons_append, List.nil_append, runChain, tableExists_eq,
    reservationExists_seatRequest]
  have hid : (seatRequest t r).table_id = t := rfl
  rw [hid]
  cases hread : TablesService.read t db with
  | none => rfl
  | some table =>
    by_cases h0 : r = 0
    · simp [h0]
    · simp only [h0, if_false]
      cases hres : TablesService.readReservation r db with
      | none => rfl
      | some people =>
        simp only [tableHasCapacity, Locals.empty]
        by_cases hcap : people > table.capacity
        · simp [hcap]
        · simp only [hcap, if_false, tableIsAvailable]
          by_cases hocc : truthyId table.reservation_id = true
          · simp [hocc]
          · simp only [hocc, reservationIsNotAlreadySeated]
            have hdata : (seatRequest t r).data = some
                { table_name := .undefined, capacity := .undefined,
                  reservation_id := some r } := rfl
            simp only [hdata]
            cases hrr : ReservationsService.read r db with
            | none => simp [hrr]
            | some reservation =>
              by_cases hst : reservation.status = "seated"
              · simp [hrr, hst]
              · simp [hrr, hst, update_seatRequest]

/-- The validations of the seat chain, case by case: when all five call
`next()`, `res.locals` holds the table row and the party size that were read,
and the database is the one the request started from. -/
theorem passAll_seatGuards_eq (t r : Nat) (db : Db) :
    passAll seatGuards (seatRequest t r) Locals.empty db =
      match TablesService.read t db with
      | none => none
      | some table =>
        if r = 0 then none
        else
          match TablesService.readReservation r db with
          | none => none
          | some people =>
            if people > table.capacity then none
            else if truthyId table.reservation_id then none
            else
              match ReservationsService.read r db with
              | none => none
              | some reservation =>
                if reservation.status == "seated" then none
                else some ({ table := some table, people := some people }, db) := by
  unfold seatGuards
  simp only [passAll, tableExists_eq, reservationExists_seatRequest]
  have hid : (seatRequest t r).table_id = t := rfl
  rw [hid]
  cases hread : TablesService.read t db with
  | none => rfl
  | some table =>
    by_cases h0 : r = 0
    · simp [h0]
    · simp only [h0, if_false]
      cases hres : TablesService.readReservation r db with
      | none => rfl
      | some people =>
        simp only [tableHasCapacity, Locals.empty]
        by_cases hcap : people > table.capacity
        · simp [hcap]
        · simp only [hcap, if_false, tableIsAvailable]
          by_cases hocc : truthyId table.reservation_id = true
          · simp [hocc]
          · simp only [hocc, reservationIsNotAlreadySeated]
            have hdata : (seatRequest t r).data = some
                { table_name := .undefined, capacity := .undefined,
                  reservation_id := some r } := rfl
            simp only [hdata]
            cases hrr : ReservationsService.read r db with
            | none => simp [hrr]
            | some reservation =>
              by_cases hst : reservation.status = "seated"
              · simp [hrr, hst]
              · simp [hrr, hst]

/-! ## Capacity -/

/-- C5: `tableHasCapacity` answers 400 exactly when the party is larger than the
capacity of the table; so whenever the seat chain reaches the `update` handler,
the table row and party size it read satisfy capacity >= people, and the
database is still untouched at that point; a party that is too large ends the
chain with status 400 and the database unchanged, as does every other error
answer of the chain; and a run of the chain that changed the database read a
table and a party with capacity >= people and made the `update` write for
that table. -/
theorem tableHasCapacity_guards_the_seat_write (t r : Nat) (db : Db) :
    (∀ (req : Req) (l : Locals) (table : Table) (people : Int),
        l.table = some table → l.people = some people →
          (people > table.capacity →
            tableHasCapacity req l db =
              .done (.error 400 ("Table " ++ table.table_name ++
                " does not have a capacity of " ++ toString people ++ " people.")) db)
          ∧ (¬ people > table.capacity → tableHasCapacity req l db = .next l db))
      ∧ (∀ (l : Locals) (db1 : Db),
          passAll seatGuards (seatRequest t r) Locals.empty db = some (l, db1) →
            db1 = db ∧ ∃ table people,
              TablesService.read t db = some table ∧
              TablesService.readReservation r db = some people ∧
              l = { table := some table, people := some people } ∧
              table.capacity ≥ people)
      ∧ (∀ (table : Table) (people : Int),
          TablesService.read t db = some table →
          TablesService.readReservation r db = some people → r ≠ 0 →
          people > table.capacity →
            seat t r db =
              (.error 400 ("Table " ++ table.table_name ++
                " does not have a capacity of " ++ toString people ++ " people."), db))
      ∧ (∀ (status : Nat) (message : String),
          (seat t r db).1 = .error status message → (seat t r db).2 = db)
      ∧ ((seat t r db).2 ≠ db →
          ∃ table people,
            TablesService.read t db = some table ∧
            TablesService.readReservation r db = some people ∧
            table.capacity ≥ people ∧
            (seat t r db).2 =
              (TablesService.update { table with reservation_id := some r } db).2) := by
  refine ⟨?_, ?_, ?_, ?_, ?_⟩
  · intro req l table people hl hp
    constructor
    · intro h
      simp [tableHasCapacity, hl, hp, h]
    · intro h
      simp [tableHasCapacity, hl, hp, h]
  · intro l db1 h
    rw [passAll_seatGuards_eq] at h
    cases hread : TablesService.read t db with
    | none => simp [hread] at h
    | some table =>
      by_cases h0 : r = 0
      · simp [hread, h0] at h
      · cases hres : TablesService.readReservation r db with
        | none => simp [hread, h0, hres] at h
        | some people =>
          by_cases hcap : people > table.capacity
          · simp [hread, h0, hres, hcap] at h
          · by_cases hocc : truthyId table.reservation_id = true
            · simp [hread, h0, hres, hcap, hocc] at h
            · cases hrr : ReservationsService.read r db with
              | none => simp [hread, h0, hres, hcap, hocc, hrr] at h
              | some reservation =>
                by_cases hst : reservation.status = "seated"
                · simp [hread, h0, hres, hcap, hocc, hrr, hst] at h
                · simp [hread, h0, hres, hcap, hocc, hrr, hst] at h
                  refine ⟨h.2.symm, table, people, rfl, rfl, h.1.symm, ?_⟩
                  exact not_lt.mp hcap
  · intro table people hread hres h0 hcap
    rw [seat_eq]
    simp [hread, hres, h0, hcap]
  · intro status message h
    rw [seat_eq] at h ⊢
    cases hread : TablesService.read t db with
    | none => rfl
    | some table =>
      by_cases h0 : r = 0
      · simp [h0]
      · cases hres : TablesService.readReservation r db with
        | none => simp [h0]
        | some people =>
          by_cases hcap : people > table.capacity
          · simp [h0, hcap]
          · by_cases hocc : truthyId table.reservation_id = true
            · simp [h0, hcap, hocc]
            · cases hrr : ReservationsService.read r db with
              | none => simp [h0, hcap, hocc]
              | some reservation =>
                by_cases hst : reservation.status = "seated"
                · simp [h0, hcap, hocc, hst]
                · simp [hread, h0, hres, hcap, hocc, hrr, hst] at h
  · intro h
    rw [seat_eq] at h ⊢
    cases hread : TablesService.read t db with
    | none => simp [hread] at h
    | some table =>
      by_cases h0 : r = 0
      · simp [hread, h0] at h
      · cases hres : TablesService.readReservation r db with
        | none => simp [hread, h0, hres] at h
        | some people =>
          by_cases hcap : people > table.capacity
          · simp [hread, h0, hres, hcap] at h
          · by_cases hocc : truthyId table.reservation_id = true
            · simp [hread, h0, hres, hcap, hocc] at h
            · cases hrr : ReservationsService.read r db with
              | none => simp [hread, h0, hres, hcap, hocc, hrr] at h
              | some reservation =>
                by_cases hst : reservation.status = "seated"
                · simp [hread, h0, hres, hcap, hocc, hrr, hst] at h
                · refine ⟨table, people, rfl, rfl, not_lt.mp hcap, ?_⟩
                  simp [h0, hcap, hocc, hst]

/-- A party of six at a table for two is refused and nothing is written. -/
theorem tableHasCapacity_guards_the_seat_write_witness :
    TablesService.read 1 smallTableDb = some ⟨1, "Bar #1", 2, true, none⟩
      ∧ TablesService.readReservation 1 smallTableDb = some 6
      ∧ seat 1 1 smallTableDb =
          (.error 400 ("Table " ++ "Bar #1" ++
            " does not have a capacity of " ++ toString (6 : Int) ++ " people."),
           smallTableDb) :=
  ⟨by decide, by decide,
   (tableHasCapacity_guards_the_seat_write 1 1 smallTableDb).2.2.1
     ⟨1, "Bar #1", 2, true, none⟩ 6 (by decide) (by decide) (by decide) (by decide)⟩

/-! ## Seating and finishing -/

/-- The finish chain, case by case. -/
theorem finish_eq (t : Nat) (db : Db) :
    finish t db =
      match TablesService.read t db with
      | none => (.error 404 ("Table " ++ toString t ++ " cannot be found."), db)
      | some table =>
        if truthyId table.reservation_id then
          (.threw "TypeError: service.delete is not a function", db)
        else (.error 400 "Table is not occupied", db) := by
  unfold finish finishChain
  simp only [runChain, tableExists_eq]
  have hid : (finishRequest t).table_id = t := rfl
  rw [hid]
  cases hread : TablesService.read t db with
  | none => rfl
  | some table =>
    simp only [tableNotOccupied, Locals.empty]
    by_cases hocc : truthyId table.reservation_id = true
    · simp [hocc, destroy, call_delete]
    · simp [hocc]

/-- C1 on the code: seating reservation 1 at the free table 1 writes the table
row, then throws because `service.updateReservationStatus` is not among the
exports; the request is not answered with 200 and the reservation is still
`booked`.  In no state at all does the seat chain answer 200 or change a
reservation. -/
theorem seat_throws_and_leaves_reservation_unmarked :
    seat 1 1 bookedDb =
        (.threw "TypeError: service.updateReservationStatus is not a function",
         { tables := [⟨1, "Bar #1", 4, false, some 1⟩, ⟨2, "Bar #2", 4, true, none⟩],
           reservations :=
             [⟨1, "Ada", "Lee", some "(555) 123-4567", 20, 1800, 2, "booked"⟩] })
      ∧ (∀ (t r : Nat) (db : Db),
          (seat t r db).2.reservations = db.reservations ∧
          ∀ (status : Nat) (rows : JsRet), (seat t r db).1 ≠ .json status rows) := by
  refine ⟨by decide, ?_⟩
  intro t r db
  rw [seat_eq]
  cases hread : TablesService.read t db with
  | none => simp
  | some table =>
    by_cases h0 : r = 0
    · simp [h0]
    · cases hres : TablesService.readReservation r db with
      | none => simp [h0]
      | some people =>
        by_cases hcap : people > table.capacity
        · simp [h0, hcap]
        · by_cases hocc : truthyId table.reservation_id = true
          · simp [h0, hcap, hocc]
          · cases hrr : ReservationsService.read r db with
            | none => simp [h0, hcap, hocc]
            | some reservation =>
              by_cases hst : reservation.status = "seated"
              · simp [h0, hcap, hocc, hst]
              · simp [h0, hcap, hocc, hst, TablesService.update]

/-- C2 on the code: finishing the occupied table 1 throws because
`service.delete` is not among the exports, before anything is written: the
table is still occupied and the reservation still `seated`.  In no state at
all does the finish chain answer 200 or change the database. -/
theorem finish_throws_and_writes_nothing :
    finish 1 seatedDb = (.threw "TypeError: service.delete is not a function", seatedDb)
      ∧ (∀ (t : Nat) (db : Db),
          (finish t db).2 = db ∧ ∀ status : Nat, (finish t db).1 ≠ .sendStatus status) := by
  refine ⟨by decide, ?_⟩
  intro t db
  rw [finish_eq]
  cases hread : TablesService.read t db with
  | none => simp
  | some table =>
    by_cases hocc : truthyId table.reservation_id = true
    · simp [hocc]
    · simp [hocc]

/-- C3 on the code: no table references a reservation at first; reservation 1
is seated at table 1 and then again at table 2.  The second request is not
refused by `reservationIsNotAlreadySeated` (the first one left the status
`booked`), it writes table 2, and two tables reference reservation 1. -/
theorem second_seat_of_same_reservation_is_written :
    (∀ r : Nat, (tablesOf r bookedDb).length ≤ 1)
      ∧ (seat 2 1 (seat 1 1 bookedDb).2).1 =
          .threw "TypeError: service.updateReservationStatus is not a function"
      ∧ tablesOf 1 (seat 2 1 (seat 1 1 bookedDb).2).2 =
          [⟨1, "Bar #1", 4, false, some 1⟩, ⟨2, "Bar #2", 4, false, some 1⟩] := by
  refine ⟨?_, by decide, by decide⟩
  intro r
  simp [tablesOf, bookedDb]

/-! ## Validation of a new table -/

/-- C6 on the code: a capacity of one half is a number smaller than one, yet
the create validations let the payload through. -/
theorem hasValidFieldInputs_lets_capacity_below_one_through
    (rt : JsRuntime) (l : Locals) (db : Db) :
    ((1 / 2 : ℚ) < 1)
      ∧ passAll (createValidation rt)
          (createRequest (.str "ab") (.num (.finite (1 / 2)))) l db = some (l, db) := by
  refine ⟨by norm_num, ?_⟩
  have hcap : jsLeZero rt (.num (.finite (1 / 2))) = false := by
    simp [jsLeZero, JsNumber.leZero]
  have hname : "ab".toList.erase (Char.ofNat 32) = "ab".toList := by decide
  have hlen : jsLength "ab".toList = 2 := by decide
  have hfields : hasRequiredFields
      (createRequest (.str "ab") (.num (.finite (1 / 2)))) l db = .next l db := by
    simp [hasRequiredFields, createRequest, VALID_PROPERTIES, Data.has]
  have hinputs : hasValidFieldInputs rt
      (createRequest (.str "ab") (.num (.finite (1 / 2)))) l db = .next l db := by
    unfold hasValidFieldInputs createRequest
    simp only [hcap, JsVal.isNumber, hname, hlen]
    simp
  simp only [createValidation, passAll, hfields, hinputs]

/-- C7 on the code: the name made of the letter a and two spaces has a single
character other than the space, yet the create validations let the payload
through: only the first space is taken out before the length is tested. -/
theorem hasValidFieldInputs_lets_one_letter_name_through
    (rt : JsRuntime) (l : Locals) (db : Db) :
    ("a  ".toList.filter (fun c => c != Char.ofNat 32)).length = 1
      ∧ passAll (createValidation rt)
          (createRequest (.str "a  ") (.num (.finite 1))) l db = some (l, db) := by
  refine ⟨by decide, ?_⟩
  have hcap : jsLeZero rt (.num (.finite 1)) = false := by
    simp [jsLeZero, JsNumber.leZero]
  have hname : "a  ".toList.erase (Char.ofNat 32) = "a ".toList := by decide
  have hlen : jsLength "a ".toList = 2 := by decide
  have hne : "a ".toList ≠ [] := by decide
  have hfields : hasRequiredFields
      (createRequest (.str "a  ") (.num (.finite 1))) l db = .next l db := by
    simp [hasRequiredFields, createRequest, VALID_PROPERTIES, Data.has]
  have hinputs : hasValidFieldInputs rt
      (createRequest (.str "a  ") (.num (.finite 1))) l db = .next l db := by
    unfold hasValidFieldInputs createRequest
    simp only [hcap, JsVal.isNumber, hname, hlen]
    simp
  simp only [createValidation, passAll, hfields, hinputs]

end Restaurant
